import Mathlib

/-!
Verification of the timeout-bounded streaming-copy core of stream-http-go
(`pkg/request/request.go`), as a shallow embedding in Lean.

Byte sources are modelled as scripts: a list of read results, each giving the
number of bytes the read reported and its error (Go `nil` error is `none`,
`io.EOF` is `some GoErr.eof`).  Byte sinks are modelled as a function from the
index of the write call and the number of bytes offered to the write result.
The timer passed to `internalTimeoutCopy` never influences the pair the
function returns: its `Reset`/`Stop` calls only rearm the deadline, and the
deadline firing manifests as an error produced by a later read or write, which
the scripts already cover; the timer bookkeeping of `timeoutReader` is
modelled explicitly where a claim is about it.
-/

namespace StreamHttp

/-- Errors of the Go code, `nil` being `Option.none` at use sites.
`eof` is `io.EOF`, `shortWrite` is `io.ErrShortWrite`, `unexpectedEOF` is
`io.ErrUnexpectedEOF`, `copyTimeout` is the package's `ErrorCopyTimeout`,
`syntaxError` and `rangeError` are `strconv.ErrSyntax` / `strconv.ErrRange`
(as wrapped by `strconv.ParseInt`), and `other` stands for any distinct
further error value a reader or writer may produce. -/
inductive GoErr where
  | eof
  | shortWrite
  | unexpectedEOF
  | copyTimeout
  | syntaxError
  | rangeError
  | other (tag : Nat)
deriving DecidableEq, Repr

/-- Result of one `Read` call: bytes read and the error returned with them. -/
structure ReadRes where
  nr : Nat
  er : Option GoErr
deriving DecidableEq, Repr

/-- Result of one `Write` call: bytes the writer reported written and its
error. -/
structure WriteRes where
  nw : Nat
  ew : Option GoErr
deriving DecidableEq, Repr

/-- `chunkSize int = 0x1 << 16`: the fixed copy buffer size. -/
def chunkSize : Nat := 2 ^ 16

/-- Embedding of `internalTimeoutCopy` (request.go lines 54-94).  `dst i n`
is the result of the `i`-th `dst.Write` call when offered `n` bytes; the list
is the script of `src.Read` results; the two `Nat`s are the write-call index
and the `written` accumulator, both `0` at the top-level call.  Returns
`none` when the script is exhausted before the loop breaks (the Go loop would
then block in `src.Read`, never returning).  The `timer.Reset`/`timer.Stop`
calls gated on `writeTimeout` do not affect the returned pair and are
omitted here. -/
def internalTimeoutCopy (dst : Nat → Nat → WriteRes) :
    List ReadRes → Nat → Nat → Option (Nat × Option GoErr)
  | [], _, _ => none
  | r :: rs, k, written =>
    if 0 < r.nr then
      let w := dst k r.nr
      let written' := if 0 < w.nw then written + w.nw else written
      match w.ew with
      | some e => some (written', some e)
      | none =>
        if r.nr ≠ w.nw then some (written', some GoErr.shortWrite)
        else
          match r.er with
          | some e => some (written', if e = GoErr.eof then none else some e)
          | none => internalTimeoutCopy dst rs (k + 1) written'
    else
      match r.er with
      | some e => some (written, if e = GoErr.eof then none else some e)
      | none => internalTimeoutCopy dst rs k written

/-- A sink that accepts every write in full and never errors. -/
def fullSink : Nat → Nat → WriteRes := fun _ n => ⟨n, none⟩

/-- A `ReadRes` script delivering the given chunk sizes, each read succeeding
with no error. -/
def chunkReads (chunks : List Nat) : List ReadRes :=
  chunks.map (fun c => ⟨c, none⟩)

theorem internalTimeoutCopy_fullSink (chunks : List Nat) (final : Nat)
    (k w : Nat) :
    internalTimeoutCopy fullSink (chunkReads chunks ++ [⟨final, some GoErr.eof⟩]) k w
      = some (w + chunks.sum + final, none) := by
  induction chunks generalizing k w with
  | nil =>
    by_cases hf : 0 < final <;>
      simp [chunkReads, internalTimeoutCopy, fullSink, hf] <;> omega
  | cons c cs ih =>
    by_cases hc : 0 < c
    · have h := ih (k + 1) (w + c)
      have e : w + c + cs.sum + final = w + (c :: cs).sum + final := by
        simp [List.sum_cons]; omega
      rw [e] at h
      simpa [chunkReads, internalTimeoutCopy, fullSink, hc] using h
    · have hc0 : c = 0 := by omega
      subst hc0
      have h := ih k w
      simpa [chunkReads, internalTimeoutCopy, fullSink] using h

/-- C1: with a sink accepting every write in full and no deadline firing (no
read faults), copying a source that delivers its bytes in chunks of size at
most the 64 KiB buffer and then signals EOF returns `written` equal to the
total byte count and a `nil` error. -/
theorem c1_bounded_copy_delivers_all (chunks : List Nat)
    (hle : ∀ c ∈ chunks, c ≤ chunkSize) :
    internalTimeoutCopy fullSink (chunkReads chunks ++ [⟨0, some GoErr.eof⟩]) 0 0
      = some (chunks.sum, none) := by
  have h := internalTimeoutCopy_fullSink chunks 0 0 0
  simpa using h

theorem c1_witness :
    (∀ c ∈ [300, 0, 65536], c ≤ chunkSize) ∧
      internalTimeoutCopy fullSink
        (chunkReads [300, 0, 65536] ++ [⟨0, some GoErr.eof⟩]) 0 0
        = some (65836, none) := by
  refine ⟨by decide, ?_⟩
  have h := c1_bounded_copy_delivers_all [300, 0, 65536] (by decide)
  simpa using h

/-- A sink whose `k`-th write reports `nw` bytes (no error) and which accepts
every other write in full. -/
def shortSinkAt (k nw : Nat) : Nat → Nat → WriteRes :=
  fun i n => if i = k then ⟨nw, none⟩ else ⟨n, none⟩

theorem internalTimeoutCopy_shortSinkAt (pre : List Nat) (j w nr nw : Nat)
    (er : Option GoErr) (rest : List ReadRes) (hpos : ∀ c ∈ pre, 0 < c)
    (hnr : 0 < nr) (hne : nw ≠ nr) :
    internalTimeoutCopy (shortSinkAt (j + pre.length) nw)
        (chunkReads pre ++ ⟨nr, er⟩ :: rest) j w
      = some (w + pre.sum + nw, some GoErr.shortWrite) := by
  induction pre generalizing j w with
  | nil =>
    have hne' : nr ≠ nw := fun h => hne h.symm
    by_cases hw : 0 < nw <;>
      simp [chunkReads, internalTimeoutCopy, shortSinkAt, hnr, hne', hw] <;>
      omega
  | cons c cs ih =>
    have hc : 0 < c := hpos c (List.mem_cons_self c cs)
    have hj : j ≠ j + (c :: cs).length := by simp
    have h := ih (j + 1) (w + c) (fun x hx => hpos x (List.mem_cons_of_mem c hx))
    have ej : j + 1 + cs.length = j + (c :: cs).length := by
      simp [List.length_cons]; omega
    rw [ej] at h
    have es : w + c + cs.sum + nw = w + (c :: cs).sum + nw := by
      simp [List.sum_cons]; omega
    rw [es] at h
    simpa [chunkReads, internalTimeoutCopy, shortSinkAt, hc, hj] using h

/-- C2 counterexample: a single read of 10 bytes whose write reports only 5
bytes written with no error makes `internalTimeoutCopy` return
`written = 5` and `io.ErrShortWrite` — the 5 bytes of the short write itself
are counted, though no prior chunk completed, contradicting the claim that
the returned count reflects only prior fully-completed chunks. -/
theorem c2_short_write_counts_partial_bytes :
    internalTimeoutCopy (fun _ _ => ⟨5, none⟩) [⟨10, none⟩] 0 0
      = some (5, some GoErr.shortWrite) ∧ (5 : Nat) ≠ 0 := by
  constructor
  · rfl
  · decide

/-- C2 amended: a sink write reporting fewer bytes than offered (with no
write error) makes the bounded copy terminate immediately with
`io.ErrShortWrite`; the returned count is the bytes of prior fully-completed
chunks PLUS the bytes the sink reported written on the short chunk itself
(the code adds `nw` to `written` before the short-write check). -/
theorem c2_short_write_total (pre : List Nat) (nr nw : Nat)
    (er : Option GoErr) (rest : List ReadRes) (hpos : ∀ c ∈ pre, 0 < c)
    (hnr : 0 < nr) (hne : nw ≠ nr) :
    internalTimeoutCopy (shortSinkAt pre.length nw)
        (chunkReads pre ++ ⟨nr, er⟩ :: rest) 0 0
      = some (pre.sum + nw, some GoErr.shortWrite) := by
  have h := internalTimeoutCopy_shortSinkAt pre 0 0 nr nw er rest hpos hnr hne
  simpa using h

theorem c2_short_write_total_witness :
    internalTimeoutCopy (shortSinkAt 1 5)
        (chunkReads [4] ++ ⟨10, none⟩ :: []) 0 0
      = some (9, some GoErr.shortWrite) := by
  have h := c2_short_write_total [4] 10 5 none [] (by decide) (by decide)
    (by decide)
  simpa using h

/-- C3: a read that returns final data together with EOF has that data
written and counted before termination, and the copy returns a `nil` error
(EOF is never surfaced); in particular the scenario of chunks
{1000, 0, 500} with EOF on the last read yields `written = 1500` and no
error. -/
theorem c3_data_with_eof_honored :
    (∀ (chunks : List Nat) (final : Nat),
        internalTimeoutCopy fullSink
            (chunkReads chunks ++ [⟨final, some GoErr.eof⟩]) 0 0
          = some (chunks.sum + final, none)) ∧
      internalTimeoutCopy fullSink
          [⟨1000, none⟩, ⟨0, none⟩, ⟨500, some GoErr.eof⟩] 0 0
        = some (1500, none) := by
  constructor
  · intro chunks final
    have h := internalTimeoutCopy_fullSink chunks final 0 0
    simpa using h
  · rfl

/-- C10: fault precedence inside one iteration of the bounded copy loop,
for a call at arbitrary write index `k` and accumulator `w` (so for every
iteration): a write error is returned in preference to a short write on the
same chunk, any write-side fault is returned in preference to whatever read
error (EOF or not) coincided with the chunk's data, the loop terminates
immediately (the rest of the source script is never consulted), and the
bytes the write reported are added to the count before the fault is
returned. -/
theorem c10_fault_precedence (dst : Nat → Nat → WriteRes) (nr nw k w : Nat)
    (er ew : Option GoErr) (rest : List ReadRes) (hnr : 0 < nr)
    (hd : dst k nr = ⟨nw, ew⟩) :
    (∀ e, ew = some e →
        internalTimeoutCopy dst (⟨nr, er⟩ :: rest) k w
          = some (w + nw, some e)) ∧
      (ew = none → nw ≠ nr →
        internalTimeoutCopy dst (⟨nr, er⟩ :: rest) k w
          = some (w + nw, some GoErr.shortWrite)) := by
  constructor
  · intro e he
    by_cases hw : 0 < nw <;>
      simp [internalTimeoutCopy, hnr, hd, he, hw] <;> omega
  · intro he hne
    have hne' : nr ≠ nw := fun h => hne h.symm
    by_cases hw : 0 < nw <;>
      simp [internalTimeoutCopy, hnr, hd, he, hne', hw] <;> omega

theorem c10_fault_precedence_witness :
    internalTimeoutCopy (fun _ _ => ⟨3, some (GoErr.other 7)⟩)
        [⟨10, some (GoErr.other 9)⟩, ⟨1, none⟩] 0 0
      = some (3, some (GoErr.other 7)) :=
  (c10_fault_precedence (fun _ _ => ⟨3, some (GoErr.other 7)⟩) 10 3 0 0
      (some (GoErr.other 9)) (some (GoErr.other 7)) [⟨1, none⟩]
      (by decide) rfl).1 (GoErr.other 7) rfl

/-- Embedding of Go `strconv.ParseInt(s, 10, 64)`: an optional leading
`+` or `-` sign followed by at least one decimal digit; a malformed string
is a syntax error, a well-formed value outside the signed 64-bit range is a
range error (in Go the error is non-nil either way, which is all
`DoRequest` inspects). -/
def parseInt64 (s : String) : Except GoErr Int :=
  let cs := s.toList
  let signed : Bool × List Char :=
    match cs with
    | '-' :: rest => (true, rest)
    | '+' :: rest => (false, rest)
    | _ => (false, cs)
  let neg := signed.1
  let ds := signed.2
  if ds.isEmpty then Except.error GoErr.syntaxError
  else if ds.all Char.isDigit then
    let n : Nat := ds.foldl (fun a c => a * 10 + (Char.toNat c - 48)) 0
    let v : Int := if neg then -(n : Int) else (n : Int)
    if v < -(2 ^ 63) ∨ 2 ^ 63 - 1 < v then Except.error GoErr.rangeError
    else Except.ok v
  else Except.error GoErr.syntaxError

/-- Embedding of the content-length validation tail of `DoRequest`
(request.go lines 187-201), reached after a successful body copy with a
response sink present.  `contentLengthString` is what
`resp.Header.Get("Content-Length")` returned (the empty string when the
header is absent) and `nWritten` is the byte count the copy returned. -/
def checkContentLength (method : String) (contentLengthString : String)
    (nWritten : Nat) : Option GoErr :=
  if method = "HEAD" then none
  else if 0 < contentLengthString.length then
    match parseInt64 contentLengthString with
    | Except.error e => some e
    | Except.ok contentLength =>
      if contentLength ≠ (nWritten : Int) then some GoErr.unexpectedEOF
      else none
  else none

/-- C4: for a non-HEAD method after a successful copy, a declared
Content-Length that parses to the bytes actually copied yields a `nil`
error, one that parses to a different value yields `io.ErrUnexpectedEOF`,
and an absent Content-Length header (empty `Get` result) imposes no check
for any byte count. -/
theorem c4_content_length_validation (method s : String) (n : Nat) (v : Int)
    (hm : method ≠ "HEAD") (hs : s.length ≠ 0)
    (hp : parseInt64 s = Except.ok v) :
    checkContentLength method s n
        = (if v = (n : Int) then none else some GoErr.unexpectedEOF) ∧
      checkContentLength method "" n = none := by
  constructor
  · have hlen : 0 < s.length := Nat.pos_of_ne_zero hs
    by_cases hv : v = (n : Int) <;>
      simp [checkContentLength, hm, hlen, hp, hv]
  · simp [checkContentLength, hm]

theorem c4_content_length_validation_witness :
    (checkContentLength "GET" "5" 5 = none ∧
        checkContentLength "GET" "" 5 = none) ∧
      checkContentLength "GET" "7" 5 = some GoErr.unexpectedEOF := by
  constructor
  · have h := c4_content_length_validation "GET" "5" 5 5 (by decide)
      (by decide) (by rfl)
    simpa using h
  · have h := (c4_content_length_validation "GET" "7" 5 7 (by decide)
      (by decide) (by rfl)).1
    simpa using h

/-- C5 counterexample: the declared value `"-1"` is not a valid
non-negative integer, yet `strconv.ParseInt` parses it successfully (it
accepts a sign), so with 0 bytes copied the code returns the mismatch fault
`io.ErrUnexpectedEOF` — not a parse fault as the claim states. -/
theorem c5_negative_value_is_mismatch_not_parse_fault :
    parseInt64 "-1" = Except.ok (-1) ∧
      checkContentLength "GET" "-1" 0 = some GoErr.unexpectedEOF := by
  constructor
  · rfl
  · rfl

/-- C5 amended: a declared Content-Length that is not a valid signed
64-bit decimal integer (optional sign, digits, within range) produces the
parse fault returned as-is; a value that parses but is negative — such as
"-1" — necessarily differs from the non-negative byte count and produces
the mismatch fault `io.ErrUnexpectedEOF`, not a parse fault. -/
theorem c5_parse_fault_propagation (method s : String) (n : Nat)
    (hm : method ≠ "HEAD") (hs : s.length ≠ 0) :
    (∀ e, parseInt64 s = Except.error e →
        checkContentLength method s n = some e) ∧
      (∀ v : Int, parseInt64 s = Except.ok v → v < 0 →
        checkContentLength method s n = some GoErr.unexpectedEOF) := by
  have hlen : 0 < s.length := Nat.pos_of_ne_zero hs
  constructor
  · intro e he
    simp [checkContentLength, hm, hlen, he]
  · intro v hv hneg
    have hvn : v ≠ (n : Int) := by
      intro h
      rw [h] at hneg
      exact absurd hneg (not_lt.mpr (Int.natCast_nonneg n))
    simp [checkContentLength, hm, hlen, hv, hvn]

theorem c5_parse_fault_propagation_witness :
    checkContentLength "GET" "12a" 0 = some GoErr.syntaxError ∧
      checkContentLength "GET" "-1" 7 = some GoErr.unexpectedEOF := by
  constructor
  · exact (c5_parse_fault_propagation "GET" "12a" 0 (by decide)
      (by decide)).1 GoErr.syntaxError (by rfl)
  · exact (c5_parse_fault_propagation "GET" "-1" 7 (by decide)
      (by decide)).2 (-1) (by rfl) (by decide)

/-- State of a `*time.Timer` as far as the code observes it: whether it is
currently armed and, when armed, the duration it was last armed with. -/
structure Timer where
  armed : Bool
  duration : Nat
deriving DecidableEq, Repr

/-- `timer.Stop()`: disarms the timer. -/
def timerStop (t : Timer) : Timer :=
  { t with armed := false }

/-- `timer.Reset(d)`: arms the timer for the full duration `d`. -/
def timerReset (_t : Timer) (d : Nat) : Timer :=
  { armed := true, duration := d }

/-- One observable event of a `timeoutReader.Read` call, in order. -/
inductive ReadEvent where
  | timerStopped
  | delegated (nr : Nat) (er : Option GoErr)
  | timerWasReset (d : Nat)
deriving DecidableEq, Repr

/-- Embedding of `timeoutReader` (request.go lines 33-37): the underlying
reader is given per call as the result its `Read` produces; `timeout` is the
stored duration. -/
structure TimeoutReader where
  timeout : Nat
  timer : Timer
deriving DecidableEq, Repr

/-- Embedding of `timeoutReader.Read` (request.go lines 47-52): stop the
timer, delegate the read, reset the timer to the full timeout, and return
the delegate's count and error unchanged.  Returns the `(nRead, err)` pair,
the timer's final state, and the ordered trace of what happened. -/
def timeoutReaderRead (tr : TimeoutReader) (delegate : ReadRes) :
    (Nat × Option GoErr) × Timer × List ReadEvent :=
  let t1 := timerStop tr.timer
  let t2 := timerReset t1 tr.timeout
  ((delegate.nr, delegate.er), t2,
    [ReadEvent.timerStopped, ReadEvent.delegated delegate.nr delegate.er,
      ReadEvent.timerWasReset tr.timeout])

/-- C8: every `timeoutReader.Read` stops the timer, delegates, then resets
the timer to the full timeout duration — unconditionally, whatever count
and error (data, EOF, or other) the delegate returned and whatever state
the timer was in — leaving the timer armed with the full duration, and it
returns the delegate's byte count and error unchanged. -/
theorem c8_read_stops_delegates_resets (tr : TimeoutReader)
    (delegate : ReadRes) :
    (timeoutReaderRead tr delegate).1 = (delegate.nr, delegate.er) ∧
      (timeoutReaderRead tr delegate).2.1
        = timerReset (timerStop tr.timer) tr.timeout ∧
      (timeoutReaderRead tr delegate).2.1.armed = true ∧
      (timeoutReaderRead tr delegate).2.1.duration = tr.timeout ∧
      (timeoutReaderRead tr delegate).2.2
        = [ReadEvent.timerStopped,
            ReadEvent.delegated delegate.nr delegate.er,
            ReadEvent.timerWasReset tr.timeout] :=
  ⟨rfl, rfl, rfl, rfl, rfl⟩

/-- The `config` struct built by applying the options (request.go lines
100-103): `timeout` is a Go `time.Duration`, i.e. a signed 64-bit count of
nanoseconds, zero when the `Timeout` option is absent. -/
structure Config where
  timeout : Int := 0
deriving DecidableEq, Repr

/-- Which copy primitive `DoRequest` uses for the response body
(request.go lines 176-182). -/
inductive CopyKind where
  | timeoutCopy
  | ioCopy
deriving DecidableEq, Repr

/-- The control-flow decisions of `DoRequest` that depend on the configured
timeout (request.go lines 145-154 and 176-182): whether a timer is created
(`time.AfterFunc`), whether a non-nil request body is wrapped in a
`timeoutReader`, and which copy is used when a response sink is present. -/
structure DoRequestPlan where
  timerCreated : Bool
  bodyWrapped : Bool
  copyKind : Option CopyKind
deriving DecidableEq, Repr

/-- Embedding of `DoRequest`'s timer-dependent decisions: a timer exists
iff `conf.timeout > 0`; the request body is wrapped iff it is non-nil and a
timer exists; the response body (when a sink is present) goes through
`internalTimeoutCopy` iff a timer exists, otherwise through `io.Copy`. -/
def doRequestPlan (conf : Config) (hasRequestBody hasResponseBody : Bool) :
    DoRequestPlan :=
  let timerCreated := decide (0 < conf.timeout)
  { timerCreated := timerCreated
    bodyWrapped := hasRequestBody && timerCreated
    copyKind :=
      if hasResponseBody then
        some (if timerCreated then CopyKind.timeoutCopy else CopyKind.ioCopy)
      else none }

/-- C9: when the configured timeout duration is zero (the option absent) or
negative, `DoRequest` creates no timer, never wraps the request body in a
`timeoutReader`, and copies the response body (when a sink is present) with
the ordinary unbounded `io.Copy`. -/
theorem c9_zero_timeout_unbounded (conf : Config)
    (hasRequestBody hasResponseBody : Bool) (h : conf.timeout ≤ 0) :
    (doRequestPlan conf hasRequestBody hasResponseBody).timerCreated = false ∧
      (doRequestPlan conf hasRequestBody hasResponseBody).bodyWrapped
        = false ∧
      (doRequestPlan conf hasRequestBody hasResponseBody).copyKind
        = (if hasResponseBody then some CopyKind.ioCopy else none) := by
  have ht : ¬(0 < conf.timeout) := not_lt.mpr h
  refine ⟨?_, ?_, ?_⟩ <;> simp [doRequestPlan, ht]

theorem c9_zero_timeout_unbounded_witness :
    (doRequestPlan ⟨0⟩ true true).timerCreated = false ∧
      (doRequestPlan ⟨0⟩ true true).bodyWrapped = false ∧
      (doRequestPlan ⟨0⟩ true true).copyKind
        = (if true then some CopyKind.ioCopy else none) :=
  c9_zero_timeout_unbounded ⟨0⟩ true true (by decide)

/-- Which of the three racing channel operations of `TimeoutCopy`'s final
`select` becomes ready first (request.go lines 256-265): the worker
goroutine delivering its copy result, the timer's channel firing, or the
worker's deferred recover delivering a panic value (panic values are
abstracted as `Nat` tags). -/
inductive RaceFirst where
  | workerFinished
  | timerFired
  | workerPanicked (p : Nat)
deriving DecidableEq, Repr

/-- The observable outcome of a `TimeoutCopy` call: either it returns a
`(written, err)` pair, or it re-raises the worker's panic. -/
inductive TimeoutCopyOutcome where
  | returned (written : Nat) (err : Option GoErr)
  | panicked (p : Nat)
deriving DecidableEq, Repr

/-- Embedding of `TimeoutCopy` (request.go lines 217-268).  The worker
goroutine computes `internalTimeoutCopy dst src 0 0`; the `select` is
modelled by the oracle `first` saying which channel operation wins the
race.  `none` models a call that never returns: the worker blocked (its
script ran out) while the timer never fires, or the oracle naming an event
that cannot occur (a worker result when the worker blocks forever). -/
def TimeoutCopy (dst : Nat → Nat → WriteRes) (src : List ReadRes)
    (first : RaceFirst) : Option TimeoutCopyOutcome :=
  match first with
  | RaceFirst.workerFinished =>
    (internalTimeoutCopy dst src 0 0).map
      (fun r => TimeoutCopyOutcome.returned r.1 r.2)
  | RaceFirst.timerFired =>
    some (TimeoutCopyOutcome.returned 0 (some GoErr.copyTimeout))
  | RaceFirst.workerPanicked p => some (TimeoutCopyOutcome.panicked p)

/-- C6: whenever the independent timer fires before the worker delivers its
result, `TimeoutCopy` returns `written = 0` and `ErrorCopyTimeout`,
whatever source and sink the abandoned worker was copying between and
however many bytes it had transferred. -/
theorem c6_timer_fires_returns_zero_and_timeout
    (dst : Nat → Nat → WriteRes) (src : List ReadRes) :
    TimeoutCopy dst src RaceFirst.timerFired
      = some (TimeoutCopyOutcome.returned 0 (some GoErr.copyTimeout)) :=
  rfl

/-- C7: every returning `TimeoutCopy` call yields exactly one of the three
race outcomes — the worker's result pair propagated verbatim, the dedicated
timeout outcome, or the worker's re-raised panic; the outcome is uniquely
determined (a single call never yields both a completed result and a
timeout), the timeout outcome arises exactly when the timer won the race,
and the worker's result is propagated exactly when the worker won. -/
theorem c7_exactly_one_race_outcome (dst : Nat → Nat → WriteRes)
    (src : List ReadRes) (first : RaceFirst) (out : TimeoutCopyOutcome)
    (h : TimeoutCopy dst src first = some out) :
    ((∃ r, internalTimeoutCopy dst src 0 0 = some r ∧
          out = TimeoutCopyOutcome.returned r.1 r.2 ∧
          first = RaceFirst.workerFinished) ∨
        (out = TimeoutCopyOutcome.returned 0 (some GoErr.copyTimeout) ∧
          first = RaceFirst.timerFired) ∨
        (∃ p, out = TimeoutCopyOutcome.panicked p ∧
          first = RaceFirst.workerPanicked p)) ∧
      (∀ out2, TimeoutCopy dst src first = some out2 → out2 = out) := by
  constructor
  · cases first with
    | workerFinished =>
      cases hr : internalTimeoutCopy dst src 0 0 with
      | none => simp [TimeoutCopy, hr] at h
      | some r =>
        left
        refine ⟨r, rfl, ?_, rfl⟩
        simp [TimeoutCopy, hr] at h
        exact h.symm
    | timerFired =>
      right; left
      refine ⟨?_, rfl⟩
      simp [TimeoutCopy] at h
      exact h.symm
    | workerPanicked p =>
      right; right
      refine ⟨p, ?_, rfl⟩
      simp [TimeoutCopy] at h
      exact h.symm
  · intro out2 h2
    rw [h] at h2
    exact (Option.some_inj.mp h2).symm

theorem c7_exactly_one_race_outcome_witness :
    ((∃ r, internalTimeoutCopy fullSink [⟨0, some GoErr.eof⟩] 0 0 = some r ∧
          TimeoutCopyOutcome.returned 0 (some GoErr.copyTimeout)
            = TimeoutCopyOutcome.returned r.1 r.2 ∧
          RaceFirst.timerFired = RaceFirst.workerFinished) ∨
        (TimeoutCopyOutcome.returned 0 (some GoErr.copyTimeout)
            = TimeoutCopyOutcome.returned 0 (some GoErr.copyTimeout) ∧
          RaceFirst.timerFired = RaceFirst.timerFired) ∨
        (∃ p, TimeoutCopyOutcome.returned 0 (some GoErr.copyTimeout)
            = TimeoutCopyOutcome.panicked p ∧
          RaceFirst.timerFired = RaceFirst.workerPanicked p)) ∧
      (∀ out2,
        TimeoutCopy fullSink [⟨0, some GoErr.eof⟩] RaceFirst.timerFired
            = some out2 →
          out2 = TimeoutCopyOutcome.returned 0 (some GoErr.copyTimeout)) :=
  c7_exactly_one_race_outcome fullSink [⟨0, some GoErr.eof⟩]
    RaceFirst.timerFired
    (TimeoutCopyOutcome.returned 0 (some GoErr.copyTimeout)) rfl

end StreamHttp
